import Mathlib

/-!
Verification of the scalable-backend core of `pybalt/challenges`:
the agent-pool allocator (`app/services/container_service.py`) and the
session broadcast hub (`app/websocket/agent_ws.py`), shallowly embedded in
Lean 4.  Python dictionaries become association lists, Python sets become
duplicate-free lists, async methods become pure state-passing functions,
and raised exceptions become `Except` results.
-/

namespace Challenges

/-! ## Association-list dictionary primitives (model of Python `dict`) -/

/-- Lookup in an association list, first binding wins (Python `d[k]` / `k in d`). -/
def dictGet? {κ α : Type} [DecidableEq κ] : List (κ × α) → κ → Option α
  | [], _ => none
  | (k, v) :: rest, key => if k = key then some v else dictGet? rest key

/-- `d[k] = v`: overwrite the binding if the key is present, else append it. -/
def dictSet {κ α : Type} [DecidableEq κ] : List (κ × α) → κ → α → List (κ × α)
  | [], key, v => [(key, v)]
  | (k, v0) :: rest, key, v =>
      if k = key then (key, v) :: rest else (k, v0) :: dictSet rest key v

/-- `del d[k]`: remove the binding for the key (no-op when absent). -/
def dictErase {κ α : Type} [DecidableEq κ] : List (κ × α) → κ → List (κ × α)
  | [], _ => []
  | (k, v0) :: rest, key =>
      if k = key then rest else (k, v0) :: dictErase rest key

/-- `s.add(x)` on a Python set modelled as a duplicate-free list. -/
def setAdd {α : Type} [DecidableEq α] (s : List α) (x : α) : List α :=
  if x ∈ s then s else x :: s

@[simp] theorem dictGet?_nil {κ α : Type} [DecidableEq κ] (key : κ) :
    dictGet? ([] : List (κ × α)) key = none := rfl

theorem dictGet?_cons {κ α : Type} [DecidableEq κ] (k key : κ) (v : α) (rest : List (κ × α)) :
    dictGet? ((k, v) :: rest) key = if k = key then some v else dictGet? rest key := rfl

@[simp] theorem dictGet?_dictSet_self {κ α : Type} [DecidableEq κ]
    (d : List (κ × α)) (key : κ) (v : α) : dictGet? (dictSet d key v) key = some v := by
  induction d with
  | nil => simp [dictSet, dictGet?]
  | cons p rest ih =>
      obtain ⟨k, v0⟩ := p
      by_cases h : k = key <;> simp [dictSet, dictGet?, h, ih]

theorem dictGet?_dictSet_ne {κ α : Type} [DecidableEq κ]
    (d : List (κ × α)) (key key' : κ) (v : α) (hne : key ≠ key') :
    dictGet? (dictSet d key v) key' = dictGet? d key' := by
  induction d with
  | nil => simp [dictSet, dictGet?, hne]
  | cons p rest ih =>
      obtain ⟨k, v0⟩ := p
      by_cases h : k = key
      · subst h; simp [dictSet, dictGet?, hne]
      · simp [dictSet, dictGet?, h, ih]

theorem dictGet?_dictErase_self {κ α : Type} [DecidableEq κ]
    (d : List (κ × α)) (key : κ) (hnd : (d.map Prod.fst).Nodup) :
    dictGet? (dictErase d key) key = none := by
  induction d with
  | nil => simp [dictErase]
  | cons p rest ih =>
      obtain ⟨k, v0⟩ := p
      simp only [List.map_cons, List.nodup_cons] at hnd
      by_cases h : k = key
      · subst h
        simp only [dictErase, if_pos rfl]
        -- k is not a key of rest, so lookup misses
        clear ih
        induction rest with
        | nil => simp
        | cons q tail ih2 =>
            obtain ⟨k2, v2⟩ := q
            simp only [List.map_cons, List.mem_cons, List.nodup_cons] at hnd
            have hk2 : k2 ≠ k := fun he => hnd.1 (Or.inl he.symm)
            simp only [dictGet?, if_neg hk2]
            exact ih2 ⟨fun hm => hnd.1 (Or.inr hm), hnd.2.2⟩
      · simp only [dictErase, if_neg h, dictGet?, if_neg h]
        exact ih hnd.2

theorem dictGet?_dictErase_ne {κ α : Type} [DecidableEq κ]
    (d : List (κ × α)) (key key' : κ) (hne : key ≠ key') :
    dictGet? (dictErase d key) key' = dictGet? d key' := by
  induction d with
  | nil => simp [dictErase]
  | cons p rest ih =>
      obtain ⟨k, v0⟩ := p
      by_cases h : k = key
      · subst h; simp [dictErase, dictGet?, hne, ih]
      · simp [dictErase, dictGet?, h, ih]

theorem mem_dictSet {κ α : Type} [DecidableEq κ]
    {d : List (κ × α)} {key : κ} {v : α} {q : κ × α} (hq : q ∈ dictSet d key v) :
    q.1 = key ∨ q ∈ d := by
  induction d with
  | nil =>
      simp only [dictSet, List.mem_singleton] at hq
      exact Or.inl (by rw [hq])
  | cons r tail ih2 =>
      obtain ⟨k2, v2⟩ := r
      by_cases h2 : k2 = key
      · subst h2
        have he : dictSet ((k2, v2) :: tail) k2 v = (k2, v) :: tail := by
          simp [dictSet]
        rw [he] at hq
        rcases List.mem_cons.mp hq with h4 | h4
        · exact Or.inl (by rw [h4])
        · exact Or.inr (List.mem_cons_of_mem _ h4)
      · simp only [dictSet, if_neg h2, List.mem_cons] at hq
        rcases hq with hq | hq
        · exact Or.inr (by simp [hq])
        · rcases ih2 hq with h3 | h3
          · exact Or.inl h3
          · exact Or.inr (List.mem_cons_of_mem _ h3)

theorem mem_dictErase {κ α : Type} [DecidableEq κ]
    {d : List (κ × α)} {key : κ} {q : κ × α} (hq : q ∈ dictErase d key) : q ∈ d := by
  induction d with
  | nil => simp [dictErase] at hq
  | cons r tail ih2 =>
      obtain ⟨k2, v2⟩ := r
      by_cases h2 : k2 = key
      · subst h2
        simp only [dictErase, if_pos rfl] at hq
        exact List.mem_cons_of_mem _ hq
      · simp only [dictErase, if_neg h2, List.mem_cons] at hq
        rcases hq with hq | hq
        · simp [hq]
        · exact List.mem_cons_of_mem _ (ih2 hq)

theorem dictSet_keys_nodup {κ α : Type} [DecidableEq κ]
    (d : List (κ × α)) (key : κ) (v : α) (hnd : (d.map Prod.fst).Nodup) :
    ((dictSet d key v).map Prod.fst).Nodup := by
  induction d with
  | nil => simp [dictSet]
  | cons p rest ih =>
      obtain ⟨k, v0⟩ := p
      simp only [List.map_cons, List.nodup_cons] at hnd
      by_cases h : k = key
      · subst h
        simpa [dictSet, List.nodup_cons] using hnd
      · have hkey : k ∉ (dictSet rest key v).map Prod.fst := by
          intro hm
          rcases List.mem_map.mp hm with ⟨q, hq, hfst⟩
          rcases mem_dictSet hq with h3 | h3
          · exact h (by rw [← hfst, h3])
          · exact hnd.1 (by rw [← hfst]; exact List.mem_map.mpr ⟨q, h3, rfl⟩)
        simp only [dictSet, if_neg h, List.map_cons, List.nodup_cons]
        exact ⟨hkey, ih hnd.2⟩

theorem dictErase_keys_nodup {κ α : Type} [DecidableEq κ]
    (d : List (κ × α)) (key : κ) (hnd : (d.map Prod.fst).Nodup) :
    ((dictErase d key).map Prod.fst).Nodup := by
  induction d with
  | nil => simp [dictErase]
  | cons p rest ih =>
      obtain ⟨k, v0⟩ := p
      simp only [List.map_cons, List.nodup_cons] at hnd
      by_cases h : k = key
      · subst h; simpa [dictErase] using hnd.2
      · have hkey : k ∉ (dictErase rest key).map Prod.fst := by
          intro hm
          rcases List.mem_map.mp hm with ⟨q, hq, hfst⟩
          exact hnd.1 (by rw [← hfst]; exact List.mem_map.mpr ⟨q, mem_dictErase hq, rfl⟩)
        simp only [dictErase, if_neg h, List.map_cons, List.nodup_cons]
        exact ⟨hkey, ih hnd.2⟩

theorem dictGet?_eq_none_iff {κ α : Type} [DecidableEq κ]
    (d : List (κ × α)) (key : κ) :
    dictGet? d key = none ↔ key ∉ d.map Prod.fst := by
  induction d with
  | nil => simp
  | cons p rest ih =>
      obtain ⟨k, v0⟩ := p
      by_cases h : k = key
      · subst h; simp [dictGet?]
      · simp [dictGet?, h, ih, Ne.symm h]

theorem dictSet_of_not_mem {κ α : Type} [DecidableEq κ]
    (d : List (κ × α)) (key : κ) (v : α) (h : dictGet? d key = none) :
    dictSet d key v = d ++ [(key, v)] := by
  induction d with
  | nil => simp [dictSet]
  | cons p rest ih =>
      obtain ⟨k, v0⟩ := p
      by_cases hk : k = key
      · subst hk; simp [dictGet?] at h
      · simp only [dictGet?, if_neg hk] at h
        simp [dictSet, hk, ih h]

/-- Looking up a key and then deleting it splits a dictionary, up to
permutation, into the found binding and the remainder. -/
theorem dict_perm_erase {κ α : Type} [DecidableEq κ]
    (d : List (κ × α)) (key : κ) (v : α) (h : dictGet? d key = some v) :
    d.Perm ((key, v) :: dictErase d key) := by
  induction d with
  | nil => simp [dictGet?] at h
  | cons p rest ih =>
      obtain ⟨k, v0⟩ := p
      by_cases hk : k = key
      · subst hk
        have h' : v0 = v := by simpa [dictGet?] using h
        subst h'
        simp [dictErase]
      · simp only [dictGet?, if_neg hk] at h
        simp only [dictErase, if_neg hk]
        exact ((ih h).cons _).trans (List.Perm.swap _ _ _)

/-- Overwriting an existing binding is, up to permutation, deleting the old
binding and adding the new one. -/
theorem dict_perm_set {κ α : Type} [DecidableEq κ]
    (d : List (κ × α)) (key : κ) (v w : α) (h : dictGet? d key = some v) :
    (dictSet d key w).Perm ((key, w) :: dictErase d key) := by
  induction d with
  | nil => simp [dictGet?] at h
  | cons p rest ih =>
      obtain ⟨k, v0⟩ := p
      by_cases hk : k = key
      · subst hk
        simp [dictSet, dictErase]
      · simp only [dictGet?, if_neg hk] at h
        simp only [dictSet, dictErase, if_neg hk]
        exact ((ih h).cons _).trans (List.Perm.swap _ _ _)

/-! ## Agent Pool Allocator (`app/services/container_service.py`) -/

/-- Per-agent static data from `ContainerService.__init__`'s `agent_pool`. -/
structure AgentInfo where
  vnc_port : Nat
  novnc_port : Nat
  container_name : String
deriving DecidableEq

/-- The fixed pre-created pool from `ContainerService.__init__`. -/
def agent_pool : List (String × AgentInfo) :=
  [("agent-1", ⟨5900, 6900, "scalable-backend-agent-1-1"⟩),
   ("agent-2", ⟨5901, 6901, "scalable-backend-agent-2-1"⟩),
   ("agent-3", ⟨5902, 6902, "scalable-backend-agent-3-1"⟩)]

/-- Mutable state of `ContainerService`: the available-agent set (modelled as a
duplicate-free list whose head is what Python's `set.pop()` returns) and the
`session_id -> agent_id` assignment dictionary. -/
structure PoolState where
  available_agents : List String
  session_assignments : List (String × String)
deriving DecidableEq

/-- `ContainerService.__init__`: all pool agents available, no assignments. -/
def initPoolState : PoolState :=
  { available_agents := agent_pool.map Prod.fst, session_assignments := [] }

/-- `ContainerService.create_session_container`: raise when no agent is
available, otherwise pop an agent, bind it to the session (overwriting any
existing binding, as Python dict assignment does) and return the agent's
container name and VNC port. -/
def create_session_container (st : PoolState) (session_id : String) :
    Except String (PoolState × String × Nat) :=
  match st.available_agents with
  | [] => .error "No available agent containers. All agents are busy."
  | agent_id :: rest =>
      match dictGet? agent_pool agent_id with
      | none => .error "KeyError"
      | some info =>
          .ok ({ available_agents := rest,
                 session_assignments := dictSet st.session_assignments session_id agent_id },
               info.container_name, info.vnc_port)

/-- `ContainerService.stop_session_container`: no-op returning `false` when the
session holds no assignment; otherwise return the agent to the available set,
drop the binding and return `true`. -/
def stop_session_container (st : PoolState) (session_id : String) : PoolState × Bool :=
  match dictGet? st.session_assignments session_id with
  | none => (st, false)
  | some agent_id =>
      ({ available_agents := setAdd st.available_agents agent_id,
         session_assignments := dictErase st.session_assignments session_id }, true)

/-- One allocator call, as issued by the caller layer. -/
inductive PoolOp
  | acquire (session_id : String)
  | release (session_id : String)
deriving DecidableEq

/-- State after one allocator call; a failed acquire leaves the state as the
raise happens before any mutation. -/
def poolStep (st : PoolState) : PoolOp → PoolState
  | .acquire sid =>
      match create_session_container st sid with
      | .ok (st', _, _) => st'
      | .error _ => st
  | .release sid => (stop_session_container st sid).1

/-- State after a sequence of allocator calls. -/
def poolRun (st : PoolState) : List PoolOp → PoolState
  | [] => st
  | op :: rest => poolRun (poolStep st op) rest

/-- The caller-layer discipline the spec assumes: `acquire` is never issued
for a session that already holds an assignment. -/
def poolRunOk (st : PoolState) : List PoolOp → Bool
  | [] => true
  | .acquire sid :: rest =>
      (dictGet? st.session_assignments sid).isNone
        && poolRunOk (poolStep st (.acquire sid)) rest
  | .release sid :: rest => poolRunOk (poolStep st (.release sid)) rest

/-- The agent ids currently bound to some session. -/
def assignedAgents (st : PoolState) : List String :=
  st.session_assignments.map Prod.snd

/-- The full fixed pool of agent ids. -/
def poolKeys : List String := agent_pool.map Prod.fst

/-- The claimed allocator invariant: available and assigned agent ids are
disjoint, together they are exactly the fixed pool, and no agent id is bound
to two sessions. -/
def poolInv (st : PoolState) : Prop :=
  (∀ a, a ∈ st.available_agents → a ∉ assignedAgents st) ∧
  (∀ a, (a ∈ st.available_agents ∨ a ∈ assignedAgents st) ↔ a ∈ poolKeys) ∧
  (assignedAgents st).Nodup

/-- Strengthened inductive invariant: `poolInv` plus the well-formedness of the
underlying containers. -/
def poolWF (st : PoolState) : Prop :=
  st.available_agents.Nodup ∧
  (st.session_assignments.map Prod.fst).Nodup ∧
  poolInv st

theorem poolWF_init : poolWF initPoolState := by
  refine ⟨by decide, by decide, ?_, ?_, by decide⟩
  · intro a _ ha
    simp [assignedAgents, initPoolState] at ha
  · intro a
    simp [assignedAgents, initPoolState, poolKeys]

theorem poolWF_acquire (st : PoolState) (sid : String)
    (hWF : poolWF st) (hnone : dictGet? st.session_assignments sid = none) :
    poolWF (poolStep st (.acquire sid)) := by
  obtain ⟨hav, hkeys, hdisj, hunion, hnodup⟩ := hWF
  cases hst : st.available_agents with
  | nil =>
      have hstep : poolStep st (.acquire sid) = st := by
        simp [poolStep, create_session_container, hst]
      rw [hstep]
      exact ⟨hav, hkeys, hdisj, hunion, hnodup⟩
  | cons a rest =>
      have hamem : a ∈ st.available_agents := by
        rw [hst]; exact List.mem_cons_self a rest
      have hapool : a ∈ poolKeys := (hunion a).mp (Or.inl hamem)
      have hlook : ¬ dictGet? agent_pool a = none := by
        rw [dictGet?_eq_none_iff]
        simpa [poolKeys] using hapool
      obtain ⟨info, hinfo⟩ : ∃ info, dictGet? agent_pool a = some info := by
        cases hopt : dictGet? agent_pool a with
        | none => exact absurd hopt hlook
        | some i => exact ⟨i, rfl⟩
      have happ : dictSet st.session_assignments sid a
          = st.session_assignments ++ [(sid, a)] :=
        dictSet_of_not_mem _ _ _ hnone
      have hstep : poolStep st (.acquire sid)
          = { available_agents := rest,
              session_assignments := st.session_assignments ++ [(sid, a)] } := by
        simp [poolStep, create_session_container, hst, hinfo, happ]
      rw [hstep]
      rw [hst] at hav
      obtain ⟨hanotin, hrest⟩ := List.nodup_cons.mp hav
      have hanotasg : a ∉ assignedAgents st := hdisj a hamem
      have hsidnotin : sid ∉ st.session_assignments.map Prod.fst :=
        (dictGet?_eq_none_iff _ _).mp hnone
      refine ⟨hrest, ?_, ?_, ?_, ?_⟩
      · simpa [List.nodup_append, hkeys] using hsidnotin
      · intro x hx
        simp only [assignedAgents, List.map_append, List.map_cons, List.map_nil,
          List.mem_append, List.mem_singleton]
        rintro (hxasg | rfl)
        · exact hdisj x (by rw [hst]; exact List.mem_cons_of_mem _ hx) hxasg
        · exact hanotin hx
      · intro x
        simp only [assignedAgents, List.map_append, List.map_cons, List.map_nil,
          List.mem_append, List.mem_singleton]
        constructor
        · rintro (hx | hx | rfl)
          · exact (hunion x).mp (Or.inl (by rw [hst]; exact List.mem_cons_of_mem _ hx))
          · exact (hunion x).mp (Or.inr hx)
          · exact hapool
        · intro hx
          rcases (hunion x).mpr hx with hav2 | hasg
          · rw [hst] at hav2
            rcases List.mem_cons.mp hav2 with rfl | hx2
            · exact Or.inr (Or.inr rfl)
            · exact Or.inl hx2
          · exact Or.inr (Or.inl hasg)
      · simp only [assignedAgents, List.map_append, List.map_cons, List.map_nil]
        rw [List.nodup_append]
        refine ⟨hnodup, List.nodup_singleton _, ?_⟩
        intro x hx hx1
        rw [List.mem_singleton] at hx1
        subst hx1
        exact hanotasg hx

theorem poolWF_release (st : PoolState) (sid : String) (hWF : poolWF st) :
    poolWF (poolStep st (.release sid)) := by
  obtain ⟨hav, hkeys, hdisj, hunion, hnodup⟩ := hWF
  cases hlook : dictGet? st.session_assignments sid with
  | none =>
      simpa [poolStep, stop_session_container, hlook] using
        (⟨hav, hkeys, hdisj, hunion, hnodup⟩ : poolWF st)
  | some b =>
      have hperm := dict_perm_erase st.session_assignments sid b hlook
      have hbasg : b ∈ assignedAgents st := by
        have hmem : (sid, b) ∈ st.session_assignments :=
          hperm.mem_iff.mpr (List.mem_cons_self _ _)
        exact List.mem_map.mpr ⟨(sid, b), hmem, rfl⟩
      have hbnotav : b ∉ st.available_agents := fun hb => hdisj b hb hbasg
      have hset : setAdd st.available_agents b = b :: st.available_agents := by
        simp [setAdd, hbnotav]
      have hstep : poolStep st (.release sid)
          = { available_agents := b :: st.available_agents,
              session_assignments := dictErase st.session_assignments sid } := by
        simp [poolStep, stop_session_container, hlook, hset]
      rw [hstep]
      have hpermsnd : (assignedAgents st).Perm
          (b :: (dictErase st.session_assignments sid).map Prod.snd) := by
        simpa [assignedAgents] using hperm.map Prod.snd
      have hpermfst : (st.session_assignments.map Prod.fst).Perm
          (sid :: (dictErase st.session_assignments sid).map Prod.fst) := by
        simpa using hperm.map Prod.fst
      have hcons : (b :: (dictErase st.session_assignments sid).map Prod.snd).Nodup :=
        hpermsnd.nodup_iff.mp hnodup
      obtain ⟨hbnotE, hEnodup⟩ := List.nodup_cons.mp hcons
      have hEsub : ∀ x, x ∈ (dictErase st.session_assignments sid).map Prod.snd →
          x ∈ assignedAgents st := fun x hx =>
        hpermsnd.mem_iff.mpr (List.mem_cons_of_mem _ hx)
      refine ⟨?_, ?_, ?_, ?_, ?_⟩
      · exact List.nodup_cons.mpr ⟨hbnotav, hav⟩
      · exact (List.nodup_cons.mp (hpermfst.nodup_iff.mp hkeys)).2
      · intro x hx
        simp only [assignedAgents]
        rcases List.mem_cons.mp hx with rfl | hx2
        · exact hbnotE
        · exact fun hmem => hdisj x hx2 (hEsub x hmem)
      · intro x
        simp only [assignedAgents]
        constructor
        · rintro (hx | hx)
          · rcases List.mem_cons.mp hx with rfl | hx2
            · exact (hunion x).mp (Or.inr hbasg)
            · exact (hunion x).mp (Or.inl hx2)
          · exact (hunion x).mp (Or.inr (hEsub x hx))
        · intro hx
          rcases (hunion x).mpr hx with hav2 | hasg
          · exact Or.inl (List.mem_cons_of_mem _ hav2)
          · rcases List.mem_cons.mp (hpermsnd.mem_iff.mp hasg) with rfl | hx2
            · exact Or.inl (List.mem_cons_self _ _)
            · exact Or.inr hx2
      · exact hEnodup

theorem poolWF_run (st : PoolState) (ops : List PoolOp)
    (hWF : poolWF st) (hok : poolRunOk st ops = true) : poolWF (poolRun st ops) := by
  induction ops generalizing st with
  | nil => simpa [poolRun] using hWF
  | cons op rest ih =>
      simp only [poolRun]
      cases op with
      | acquire sid =>
          simp only [poolRunOk, Bool.and_eq_true, Option.isNone_iff_eq_none] at hok
          exact ih _ (poolWF_acquire st sid hWF hok.1) hok.2
      | release sid =>
          simp only [poolRunOk] at hok
          exact ih _ (poolWF_release st sid hWF) hok

theorem poolRunOk_take (st : PoolState) (ops : List PoolOp) (k : Nat)
    (hok : poolRunOk st ops = true) : poolRunOk st (ops.take k) = true := by
  induction ops generalizing st k with
  | nil => simp [poolRunOk]
  | cons op rest ih =>
      cases k with
      | zero => simp [poolRunOk]
      | succ k2 =>
          cases op with
          | acquire sid =>
              simp only [List.take, poolRunOk, Bool.and_eq_true] at hok ⊢
              exact ⟨hok.1, ih _ _ hok.2⟩
          | release sid =>
              simp only [List.take, poolRunOk] at hok ⊢
              exact ih _ _ hok

/-- `acquire` for each session id in turn, stopping at the first failure. -/
def acquireAll (st : PoolState) : List String → Except String PoolState
  | [] => .ok st
  | sid :: rest =>
      match create_session_container st sid with
      | .ok (st2, _, _) => acquireAll st2 rest
      | .error e => .error e

/-- C1, counterexample: acquiring twice for the same session id leaks the
first agent — afterwards `agent-1` is neither available nor assigned, so the
available/assigned sets no longer cover the full pool. -/
theorem pool_partition_counterexample :
    ¬ poolInv (poolRun initPoolState [.acquire "s1", .acquire "s1"]) := by
  intro h
  have h1 := (h.2.1 "agent-1").mpr (by decide)
  revert h1
  decide

/-- C1 (amended): for every sequence of acquire/release calls in which acquire
is never issued for a session that already holds an assignment, after each
call the available and assigned agent-id sets are disjoint, their union is the
full fixed pool, and each agent id is assigned to at most one session. -/
theorem pool_partition_invariant (ops : List PoolOp) (k : Nat)
    (hok : poolRunOk initPoolState ops = true) :
    poolInv (poolRun initPoolState (ops.take k)) :=
  (poolWF_run initPoolState (ops.take k) poolWF_init
    (poolRunOk_take initPoolState ops k hok)).2.2

theorem pool_partition_invariant_witness :
    poolRunOk initPoolState [.acquire "s1", .acquire "s2", .release "s1"] = true ∧
    poolInv (poolRun initPoolState
      ([.acquire "s1", .acquire "s2", .release "s1"].take 2)) :=
  ⟨by decide, pool_partition_invariant [.acquire "s1", .acquire "s2", .release "s1"] 2
    (by decide)⟩

/-- C2, counterexample: with `s1` already bound to `agent-1`, a second acquire
for `s1` does not return the existing assignment — it pops `agent-2`, rebinds
`s1` to it and shrinks the available set from two agents to one. -/
theorem acquire_idempotent_counterexample :
    dictGet? (poolRun initPoolState [.acquire "s1"]).session_assignments "s1"
        = some "agent-1" ∧
    create_session_container (poolRun initPoolState [.acquire "s1"]) "s1"
      = .ok ({ available_agents := ["agent-3"],
               session_assignments := [("s1", "agent-2")] },
             "scalable-backend-agent-2-1", 5901) :=
  ⟨rfl, rfl⟩

/-- C2 (amended): acquire for a session id that already holds an assignment is
not idempotent: when an agent is still available it pops that second agent,
overwrites the session's binding with it, returns the second agent's
connection info, and the previously bound agent ends up neither available nor
assigned (it is leaked). -/
theorem acquire_double_allocates (st : PoolState) (sid old a : String)
    (rest : List String) (info : AgentInfo)
    (hold : dictGet? st.session_assignments sid = some old)
    (hav : st.available_agents = a :: rest)
    (hinfo : dictGet? agent_pool a = some info)
    (hnotav : old ∉ st.available_agents)
    (hnodup : (assignedAgents st).Nodup) :
    create_session_container st sid
      = .ok ({ available_agents := rest,
               session_assignments := dictSet st.session_assignments sid a },
             info.container_name, info.vnc_port) ∧
    dictGet? (dictSet st.session_assignments sid a) sid = some a ∧
    a ≠ old ∧
    old ∉ rest ∧
    old ∉ (dictSet st.session_assignments sid a).map Prod.snd := by
  have hane : a ≠ old := by
    intro he
    apply hnotav
    rw [hav, ← he]
    exact List.mem_cons_self a rest
  have holdrest : old ∉ rest := by
    intro hmem
    exact hnotav (by rw [hav]; exact List.mem_cons_of_mem _ hmem)
  have hpermE : (assignedAgents st).Perm
      (old :: (dictErase st.session_assignments sid).map Prod.snd) := by
    simpa [assignedAgents] using (dict_perm_erase _ _ _ hold).map Prod.snd
  have holdnotE : old ∉ (dictErase st.session_assignments sid).map Prod.snd :=
    (List.nodup_cons.mp (hpermE.nodup_iff.mp hnodup)).1
  have hpermS : ((dictSet st.session_assignments sid a).map Prod.snd).Perm
      (a :: (dictErase st.session_assignments sid).map Prod.snd) := by
    simpa using (dict_perm_set _ _ _ a hold).map Prod.snd
  refine ⟨by simp [create_session_container, hav, hinfo], dictGet?_dictSet_self _ _ _,
    hane, holdrest, ?_⟩
  intro hmem
  rcases List.mem_cons.mp (hpermS.mem_iff.mp hmem) with he | hmem2
  · exact hane he.symm
  · exact holdnotE hmem2

theorem acquire_double_allocates_witness :
    dictGet? (poolRun initPoolState [.acquire "s1"]).session_assignments "s1"
        = some "agent-1" ∧
    (poolRun initPoolState [.acquire "s1"]).available_agents
        = "agent-2" :: ["agent-3"] ∧
    dictGet? agent_pool "agent-2" = some ⟨5901, 6901, "scalable-backend-agent-2-1"⟩ ∧
    "agent-1" ∉ (poolRun initPoolState [.acquire "s1"]).available_agents ∧
    (assignedAgents (poolRun initPoolState [.acquire "s1"])).Nodup ∧
    create_session_container (poolRun initPoolState [.acquire "s1"]) "s1"
      = .ok ({ available_agents := ["agent-3"],
               session_assignments :=
                 dictSet (poolRun initPoolState [.acquire "s1"]).session_assignments
                   "s1" "agent-2" },
             "scalable-backend-agent-2-1", 5901) :=
  ⟨by decide, by decide, by decide, by decide, by decide,
    (acquire_double_allocates (poolRun initPoolState [.acquire "s1"]) "s1" "agent-1"
      "agent-2" ["agent-3"] ⟨5901, 6901, "scalable-backend-agent-2-1"⟩
      (by decide) (by decide) (by decide) (by decide) (by decide)).1⟩

/-- C4: from the full pool of size 3, acquire for three distinct sessions
succeeds three times and binds each session its own agent; the fourth acquire
(no releases in between) raises the capacity error and leaves the state —
assignments and available set — unchanged. -/
theorem pool_exhaustion (s1 s2 s3 s4 : String)
    (h12 : s1 ≠ s2) (h13 : s1 ≠ s3) (h23 : s2 ≠ s3) :
    ∃ st : PoolState,
      acquireAll initPoolState [s1, s2, s3] = .ok st ∧
      dictGet? st.session_assignments s1 = some "agent-1" ∧
      dictGet? st.session_assignments s2 = some "agent-2" ∧
      dictGet? st.session_assignments s3 = some "agent-3" ∧
      st.available_agents = [] ∧
      create_session_container st s4
        = .error "No available agent containers. All agents are busy." ∧
      poolStep st (.acquire s4) = st := by
  refine ⟨{ available_agents := [],
            session_assignments :=
              [(s1, "agent-1"), (s2, "agent-2"), (s3, "agent-3")] },
          ?_, ?_, ?_, ?_, rfl, rfl, rfl⟩
  · simp [acquireAll, create_session_container, initPoolState, agent_pool,
      dictGet?, dictSet, h12, h13, h23]
  · simp [dictGet?]
  · simp [dictGet?, h12]
  · simp [dictGet?, h13, h23]

theorem pool_exhaustion_witness :
    ("s1" : String) ≠ "s2" ∧ ("s1" : String) ≠ "s3" ∧ ("s2" : String) ≠ "s3" ∧
    (∃ st : PoolState,
      acquireAll initPoolState ["s1", "s2", "s3"] = .ok st ∧
      dictGet? st.session_assignments "s1" = some "agent-1" ∧
      dictGet? st.session_assignments "s2" = some "agent-2" ∧
      dictGet? st.session_assignments "s3" = some "agent-3" ∧
      st.available_agents = [] ∧
      create_session_container st "s4"
        = .error "No available agent containers. All agents are busy." ∧
      poolStep st (.acquire "s4") = st) :=
  ⟨by decide, by decide, by decide,
    pool_exhaustion "s1" "s2" "s3" "s4" (by decide) (by decide) (by decide)⟩

/-- C6: release on a session with no assignment returns `false` and changes
nothing, and a second consecutive release for the same session again returns
`false` with no state change. -/
theorem release_noop (st : PoolState) (sid : String)
    (h : dictGet? st.session_assignments sid = none) :
    stop_session_container st sid = (st, false) ∧
    stop_session_container (stop_session_container st sid).1 sid = (st, false) := by
  have h1 : stop_session_container st sid = (st, false) := by
    simp [stop_session_container, h]
  refine ⟨h1, ?_⟩
  rw [h1]
  exact h1

theorem release_noop_witness :
    dictGet? initPoolState.session_assignments "s9" = none ∧
    (stop_session_container initPoolState "s9" = (initPoolState, false) ∧
     stop_session_container (stop_session_container initPoolState "s9").1 "s9"
       = (initPoolState, false)) :=
  ⟨by decide, release_noop initPoolState "s9" (by decide)⟩

/-! ## Session Broadcast Hub (`app/websocket/agent_ws.py`) -/

/-- Observer connections are identified by an opaque id (the spec's
arena/index pattern for Python's identity-keyed `WebSocket` objects). -/
abbrev WS := Nat

/-- Per-connection metadata stored in `connection_metadata`. -/
structure ConnMeta where
  session_id : String
  user_id : Option String
  connected_at : Nat
deriving DecidableEq

/-- How one websocket behaves when the manager tries to send to it:
delivery succeeds, the socket reports `client_state == "DISCONNECTED"`, or
`send_text` raises. -/
inductive WsBehavior
  | ok
  | alreadyDisconnected
  | sendFails
deriving DecidableEq

/-- Mutable state of `AgentWebSocketManager`: the per-session observer sets
and the per-connection metadata dictionary. -/
structure HubState where
  active_connections : List (String × List WS)
  connection_metadata : List (WS × ConnMeta)
deriving DecidableEq

/-- `AgentWebSocketManager.__init__`. -/
def initHubState : HubState := { active_connections := [], connection_metadata := [] }

/-- The events emitted by the manager that the claims mention. -/
inductive Event
  | connectionEvt (session_id : String) (timestamp : Nat)
  | pong (timestamp : Nat)
  | user_message (content : String) (timestamp : Nat) (message_id : String)
  | agent_message (content : String) (timestamp : Nat) (message_id : String)
  | errorEvt (message : String) (timestamp : Nat)
deriving DecidableEq

/-- `AgentWebSocketManager.disconnect`: look up the connection's session,
discard it from that session's observer set, drop the session key if the set
became empty, and delete the metadata entry; a no-op for unknown sockets. -/
def disconnect (st : HubState) (ws : WS) : HubState :=
  match dictGet? st.connection_metadata ws with
  | none => st
  | some meta =>
      let ac :=
        match dictGet? st.active_connections meta.session_id with
        | none => st.active_connections
        | some conns =>
            let conns2 := conns.erase ws
            if conns2 = [] then dictErase st.active_connections meta.session_id
            else dictSet st.active_connections meta.session_id conns2
      { active_connections := ac,
        connection_metadata := dictErase st.connection_metadata ws }

/-- `AgentWebSocketManager.send_to_websocket`: skip (and clean up) a socket
that already reports disconnected, deliver on success, and on a send
exception catch it and disconnect the broken socket — never re-raising.
The second component lists the deliveries that actually happened. -/
def send_to_websocket (beh : WS → WsBehavior) (st : HubState) (ws : WS) (msg : Event) :
    HubState × List (WS × Event) :=
  match beh ws with
  | .alreadyDisconnected => (disconnect st ws, [])
  | .sendFails => (disconnect st ws, [])
  | .ok => (st, [(ws, msg)])

/-- The `for websocket in connections:` loop body of `broadcast_to_session`,
over the snapshot list. -/
def sendToAll (beh : WS → WsBehavior) (st : HubState) (conns : List WS) (msg : Event) :
    HubState × List (WS × Event) :=
  match conns with
  | [] => (st, [])
  | ws :: rest =>
      let r1 := send_to_websocket beh st ws msg
      let r2 := sendToAll beh r1.1 rest msg
      (r2.1, r1.2 ++ r2.2)

/-- `AgentWebSocketManager.broadcast_to_session`: silently return when the
session has no observers, otherwise attempt delivery to a snapshot of the
observer set, independently per connection. -/
def broadcast_to_session (beh : WS → WsBehavior) (st : HubState) (session_id : String)
    (msg : Event) : HubState × List (WS × Event) :=
  match dictGet? st.active_connections session_id with
  | none => (st, [])
  | some conns => sendToAll beh st conns msg

/-- `AgentWebSocketManager.connect`: register the socket in the session's
observer set (creating it when absent), record the metadata, then send the
welcome `connection` event through `send_to_websocket`. -/
def connect (beh : WS → WsBehavior) (st : HubState) (ws : WS) (session_id : String)
    (user_id : Option String) (now : Nat) : HubState × List (WS × Event) :=
  let conns := (dictGet? st.active_connections session_id).getD []
  let st1 : HubState :=
    { active_connections := dictSet st.active_connections session_id (setAdd conns ws),
      connection_metadata :=
        dictSet st.connection_metadata ws ⟨session_id, user_id, now⟩ }
  send_to_websocket beh st1 ws (.connectionEvt session_id now)

/-- State of the excluded persistence collaborator: the set of existing
sessions, the next durable message id, and the chat history rows. -/
structure Db where
  sessions : List String
  next_id : Nat
  history : List (Nat × String × String × String)
deriving DecidableEq

/-- `AgentWebSocketManager._simulate_agent_response`: persist a canned
assistant reply and broadcast it as an `agent_message` event. -/
def simulate_agent_response (beh : WS → WsBehavior) (st : HubState) (db : Db)
    (session_id user_message : String) (now : Nat) :
    HubState × Db × List (WS × Event) :=
  let response := "I received your message: '" ++ user_message ++
    "'. This is a simulated response from the agent container."
  let mid := db.next_id
  let db2 : Db :=
    { db with
      next_id := mid + 1
      history := db.history ++ [(mid, session_id, "assistant", response)] }
  let r := broadcast_to_session beh st session_id
    (.agent_message response now (toString mid))
  (r.1, db2, r.2)

/-- `AgentWebSocketManager.handle_user_message`: verify the session exists and
persist the user message; on any failure in that block, catch it and broadcast
an `error` event to the session; on success broadcast the `user_message` event
(with the durable id) and then run the simulated agent response.  `persistOk`
models whether the durable write by the external collaborator succeeds. -/
def handle_user_message (beh : WS → WsBehavior) (persistOk : Bool) (st : HubState)
    (db : Db) (session_id content : String) (now : Nat) :
    HubState × Db × List (WS × Event) :=
  if session_id ∈ db.sessions then
    if persistOk then
      let mid := db.next_id
      let db2 : Db :=
        { db with
          next_id := mid + 1
          history := db.history ++ [(mid, session_id, "user", content)] }
      let r1 := broadcast_to_session beh st session_id
        (.user_message content now (toString mid))
      let r2 := simulate_agent_response beh r1.1 db2 session_id content now
      (r2.1, r2.2.1, r1.2 ++ r2.2.2)
    else
      let r := broadcast_to_session beh st session_id
        (.errorEvt "Error processing message: persistence failure" now)
      (r.1, db, r.2)
  else
    let r := broadcast_to_session beh st session_id
      (.errorEvt "Error processing message: 404: Session not found" now)
    (r.1, db, r.2)

/-- One inbound payload, already JSON-decoded and classified the way
`websocket_endpoint` classifies it. -/
inductive Payload
  | message (content : String)
  | ping
  | other (t : String)
  | invalid
deriving DecidableEq

/-- One iteration of the `websocket_endpoint` receive loop for a payload from
socket `ws` of session `session_id`. -/
def handle_payload (beh : WS → WsBehavior) (persistOk : Bool) (st : HubState) (db : Db)
    (ws : WS) (session_id : String) (p : Payload) (now : Nat) :
    HubState × Db × List (WS × Event) :=
  match p with
  | .message content => handle_user_message beh persistOk st db session_id content now
  | .ping =>
      let r := send_to_websocket beh st ws (.pong now)
      (r.1, db, r.2)
  | .other _ => (st, db, [])
  | .invalid =>
      let r := send_to_websocket beh st ws (.errorEvt "Invalid JSON message format" now)
      (r.1, db, r.2)

/-- `AgentWebSocketManager.get_session_stats` result shape. -/
structure ConnStat where
  user_id : Option String
  connected_at : Nat
  duration_seconds : Nat
deriving DecidableEq

/-- `get_session_stats` returns `{'active_connections': 0}` (no `connections`
list) for an unknown session; otherwise the count plus one entry per observer
that has metadata. -/
structure SessionStats where
  active_connections : Nat
  connections : Option (List ConnStat)
deriving DecidableEq

/-- `AgentWebSocketManager.get_session_stats`. -/
def get_session_stats (st : HubState) (session_id : String) (now : Nat) : SessionStats :=
  match dictGet? st.active_connections session_id with
  | none => { active_connections := 0, connections := none }
  | some conns =>
      { active_connections := conns.length,
        connections := some (conns.filterMap (fun ws =>
          (dictGet? st.connection_metadata ws).map (fun m =>
            ⟨m.user_id, m.connected_at, now - m.connected_at⟩))) }

/-- The hub-consistency property of the claims: a socket has a metadata entry
for session `s` exactly when it sits in the observer set stored under `s`, and
no stored observer set is empty. -/
def hubInv (st : HubState) : Prop :=
  (∀ ws meta, dictGet? st.connection_metadata ws = some meta →
     ∃ conns, dictGet? st.active_connections meta.session_id = some conns ∧ ws ∈ conns) ∧
  (∀ sid conns, dictGet? st.active_connections sid = some conns →
     ∀ ws, ws ∈ conns →
       ∃ meta, dictGet? st.connection_metadata ws = some meta ∧ meta.session_id = sid) ∧
  (∀ sid conns, dictGet? st.active_connections sid = some conns → conns ≠ [])

/-- `hubInv` plus well-formedness of the underlying containers. -/
def hubWF (st : HubState) : Prop :=
  (st.active_connections.map Prod.fst).Nodup ∧
  (st.connection_metadata.map Prod.fst).Nodup ∧
  (∀ sid conns, dictGet? st.active_connections sid = some conns → conns.Nodup) ∧
  hubInv st

theorem hubWF_init : hubWF initHubState := by
  refine ⟨by simp [initHubState], by simp [initHubState], ?_, ?_, ?_, ?_⟩ <;>
    intro x y h <;> simp [initHubState] at h

theorem hubWF_disconnect (st : HubState) (ws : WS) (hWF : hubWF st) :
    hubWF (disconnect st ws) := by
  obtain ⟨hacnd, hcmnd, hcnodup, hinv1, hinv2, hne⟩ := hWF
  cases hmeta : dictGet? st.connection_metadata ws with
  | none =>
      have hstep : disconnect st ws = st := by simp [disconnect, hmeta]
      rw [hstep]
      exact ⟨hacnd, hcmnd, hcnodup, hinv1, hinv2, hne⟩
  | some meta =>
      obtain ⟨conns, hconns, hwsmem⟩ := hinv1 ws meta hmeta
      have hcnd : conns.Nodup := hcnodup _ _ hconns
      by_cases herase : conns.erase ws = []
      · have hstep : disconnect st ws
            = { active_connections := dictErase st.active_connections meta.session_id,
                connection_metadata := dictErase st.connection_metadata ws } := by
          simp [disconnect, hmeta, hconns, herase]
        rw [hstep]
        refine ⟨dictErase_keys_nodup _ _ hacnd, dictErase_keys_nodup _ _ hcmnd,
          ?_, ?_, ?_, ?_⟩
        · intro sid2 conns2 h2
          by_cases hs : meta.session_id = sid2
          · rw [← hs, dictGet?_dictErase_self _ _ hacnd] at h2; exact absurd h2 (by simp)
          · rw [dictGet?_dictErase_ne _ _ _ hs] at h2
            exact hcnodup _ _ h2
        · intro ws2 meta2 h2
          by_cases hw : ws = ws2
          · rw [← hw, dictGet?_dictErase_self _ _ hcmnd] at h2; exact absurd h2 (by simp)
          · rw [dictGet?_dictErase_ne _ _ _ hw] at h2
            obtain ⟨conns3, hconns3, hmem3⟩ := hinv1 ws2 meta2 h2
            by_cases hs : meta2.session_id = meta.session_id
            · rw [hs, hconns] at hconns3
              have hceq : conns3 = conns := by simpa using hconns3.symm
              rw [hceq] at hmem3
              have hmem4 : ws2 ∈ conns.erase ws :=
                (hcnd.mem_erase_iff).mpr ⟨fun he => hw he.symm, hmem3⟩
              rw [herase] at hmem4
              exact absurd hmem4 (by simp)
            · refine ⟨conns3, ?_, hmem3⟩
              rw [dictGet?_dictErase_ne _ _ _ (fun he => hs (he.symm))]
              exact hconns3
        · intro sid2 conns2 h2 ws2 hmem2
          by_cases hs : meta.session_id = sid2
          · rw [← hs, dictGet?_dictErase_self _ _ hacnd] at h2; exact absurd h2 (by simp)
          · rw [dictGet?_dictErase_ne _ _ _ hs] at h2
            obtain ⟨meta2, hm2, hsid2⟩ := hinv2 sid2 conns2 h2 ws2 hmem2
            by_cases hw : ws = ws2
            · rw [← hw, hmeta] at hm2
              obtain rfl : meta = meta2 := by simpa using hm2
              exact absurd hsid2 (fun he => hs he)
            · refine ⟨meta2, ?_, hsid2⟩
              rw [dictGet?_dictErase_ne _ _ _ hw]
              exact hm2
        · intro sid2 conns2 h2
          by_cases hs : meta.session_id = sid2
          · rw [← hs, dictGet?_dictErase_self _ _ hacnd] at h2; exact absurd h2 (by simp)
          · rw [dictGet?_dictErase_ne _ _ _ hs] at h2
            exact hne _ _ h2
      · have hstep : disconnect st ws
            = { active_connections :=
                  dictSet st.active_connections meta.session_id (conns.erase ws),
                connection_metadata := dictErase st.connection_metadata ws } := by
          simp [disconnect, hmeta, hconns, herase]
        rw [hstep]
        refine ⟨dictSet_keys_nodup _ _ _ hacnd, dictErase_keys_nodup _ _ hcmnd,
          ?_, ?_, ?_, ?_⟩
        · intro sid2 conns2 h2
          by_cases hs : meta.session_id = sid2
          · rw [← hs, dictGet?_dictSet_self] at h2
            have hceq : conns2 = conns.erase ws := by simpa using h2.symm
            rw [hceq]
            exact hcnd.erase _
          · rw [dictGet?_dictSet_ne _ _ _ _ hs] at h2
            exact hcnodup _ _ h2
        · intro ws2 meta2 h2
          by_cases hw : ws = ws2
          · rw [← hw, dictGet?_dictErase_self _ _ hcmnd] at h2; exact absurd h2 (by simp)
          · rw [dictGet?_dictErase_ne _ _ _ hw] at h2
            obtain ⟨conns3, hconns3, hmem3⟩ := hinv1 ws2 meta2 h2
            by_cases hs : meta2.session_id = meta.session_id
            · rw [hs, hconns] at hconns3
              have hceq : conns3 = conns := by simpa using hconns3.symm
              rw [hceq] at hmem3
              refine ⟨conns.erase ws, ?_, ?_⟩
              · rw [hs, dictGet?_dictSet_self]
              · exact (hcnd.mem_erase_iff).mpr ⟨fun he => hw he.symm, hmem3⟩
            · refine ⟨conns3, ?_, hmem3⟩
              rw [dictGet?_dictSet_ne _ _ _ _ (fun he => hs (he.symm))]
              exact hconns3
        · intro sid2 conns2 h2 ws2 hmem2
          by_cases hs : meta.session_id = sid2
          · rw [← hs, dictGet?_dictSet_self] at h2
            have hceq : conns2 = conns.erase ws := by simpa using h2.symm
            rw [hceq] at hmem2
            obtain ⟨hwne, hwsin⟩ := (hcnd.mem_erase_iff).mp hmem2
            obtain ⟨meta2, hm2, hsid2⟩ := hinv2 _ _ hconns ws2 hwsin
            refine ⟨meta2, ?_, by rw [hsid2, hs]⟩
            rw [dictGet?_dictErase_ne _ _ _ (fun he => hwne (he.symm))]
            exact hm2
          · rw [dictGet?_dictSet_ne _ _ _ _ hs] at h2
            obtain ⟨meta2, hm2, hsid2⟩ := hinv2 sid2 conns2 h2 ws2 hmem2
            by_cases hw : ws = ws2
            · rw [← hw, hmeta] at hm2
              obtain rfl : meta = meta2 := by simpa using hm2
              exact absurd hsid2 (fun he => hs he)
            · refine ⟨meta2, ?_, hsid2⟩
              rw [dictGet?_dictErase_ne _ _ _ hw]
              exact hm2
        · intro sid2 conns2 h2
          by_cases hs : meta.session_id = sid2
          · rw [← hs, dictGet?_dictSet_self] at h2
            have hceq : conns2 = conns.erase ws := by simpa using h2.symm
            rw [hceq]
            exact herase
          · rw [dictGet?_dictSet_ne _ _ _ _ hs] at h2
            exact hne _ _ h2

theorem hubWF_send (beh : WS → WsBehavior) (st : HubState) (ws : WS) (msg : Event)
    (hWF : hubWF st) : hubWF (send_to_websocket beh st ws msg).1 := by
  cases hb : beh ws with
  | ok => simpa [send_to_websocket, hb] using hWF
  | alreadyDisconnected =>
      simpa [send_to_websocket, hb] using hubWF_disconnect st ws hWF
  | sendFails =>
      simpa [send_to_websocket, hb] using hubWF_disconnect st ws hWF

theorem hubWF_sendToAll (beh : WS → WsBehavior) (st : HubState) (conns : List WS)
    (msg : Event) (hWF : hubWF st) : hubWF (sendToAll beh st conns msg).1 := by
  induction conns generalizing st with
  | nil => simpa [sendToAll] using hWF
  | cons w rest ih => exact ih _ (hubWF_send beh st w msg hWF)

theorem hubWF_broadcast (beh : WS → WsBehavior) (st : HubState) (sid : String)
    (msg : Event) (hWF : hubWF st) : hubWF (broadcast_to_session beh st sid msg).1 := by
  cases hc : dictGet? st.active_connections sid with
  | none => simpa [broadcast_to_session, hc] using hWF
  | some conns =>
      have heq : broadcast_to_session beh st sid msg = sendToAll beh st conns msg := by
        simp [broadcast_to_session, hc]
      rw [heq]
      exact hubWF_sendToAll beh st conns msg hWF

theorem hubWF_connect (beh : WS → WsBehavior) (st : HubState) (ws : WS) (sid : String)
    (uid : Option String) (now : Nat) (hWF : hubWF st)
    (hfresh : dictGet? st.connection_metadata ws = none) :
    hubWF (connect beh st ws sid uid now).1 := by
  obtain ⟨hacnd, hcmnd, hcnodup, hinv1, hinv2, hne⟩ := hWF
  have hws0 : ws ∉ (dictGet? st.active_connections sid).getD [] := by
    intro hmem
    cases hc : dictGet? st.active_connections sid with
    | none => rw [hc] at hmem; exact absurd hmem (by simp)
    | some cs =>
        rw [hc] at hmem
        obtain ⟨meta2, hm2, _⟩ := hinv2 sid cs hc ws (by simpa using hmem)
        rw [hfresh] at hm2
        exact absurd hm2 (by simp)
  have hadd : setAdd ((dictGet? st.active_connections sid).getD []) ws
      = ws :: (dictGet? st.active_connections sid).getD [] := by
    simp [setAdd, hws0]
  have hWF1 : hubWF
      { active_connections := dictSet st.active_connections sid
          (setAdd ((dictGet? st.active_connections sid).getD []) ws),
        connection_metadata := dictSet st.connection_metadata ws ⟨sid, uid, now⟩ } := by
    rw [hadd]
    refine ⟨dictSet_keys_nodup _ _ _ hacnd, dictSet_keys_nodup _ _ _ hcmnd,
      ?_, ?_, ?_, ?_⟩
    · intro sid2 conns2 h2
      by_cases hs : sid = sid2
      · rw [← hs, dictGet?_dictSet_self] at h2
        have hceq : conns2 = ws :: (dictGet? st.active_connections sid).getD [] := by
          simpa using h2.symm
        rw [hceq]
        refine List.nodup_cons.mpr ⟨hws0, ?_⟩
        cases hc : dictGet? st.active_connections sid with
        | none => simp
        | some cs => simpa using hcnodup _ _ hc
      · rw [dictGet?_dictSet_ne _ _ _ _ hs] at h2
        exact hcnodup _ _ h2
    · intro ws2 meta2 h2
      by_cases hw : ws = ws2
      · rw [← hw, dictGet?_dictSet_self] at h2
        have hmeq : meta2 = (⟨sid, uid, now⟩ : ConnMeta) := by simpa using h2.symm
        rw [hmeq]
        exact ⟨ws :: (dictGet? st.active_connections sid).getD [],
          dictGet?_dictSet_self _ _ _, by rw [← hw]; exact List.mem_cons_self _ _⟩
      · rw [dictGet?_dictSet_ne _ _ _ _ hw] at h2
        obtain ⟨conns3, hconns3, hmem3⟩ := hinv1 ws2 meta2 h2
        by_cases hs : meta2.session_id = sid
        · rw [hs] at hconns3
          refine ⟨ws :: (dictGet? st.active_connections sid).getD [], ?_, ?_⟩
          · rw [hs, dictGet?_dictSet_self]
          · rw [hconns3]
            exact List.mem_cons_of_mem _ (by simpa using hmem3)
        · refine ⟨conns3, ?_, hmem3⟩
          rw [dictGet?_dictSet_ne _ _ _ _ (fun he => hs (he.symm))]
          exact hconns3
    · intro sid2 conns2 h2 ws2 hmem2
      by_cases hs : sid = sid2
      · rw [← hs, dictGet?_dictSet_self] at h2
        have hceq : conns2 = ws :: (dictGet? st.active_connections sid).getD [] := by
          simpa using h2.symm
        rw [hceq] at hmem2
        rcases List.mem_cons.mp hmem2 with rfl | hmem3
        · exact ⟨⟨sid, uid, now⟩, dictGet?_dictSet_self _ _ _, hs⟩
        · cases hc : dictGet? st.active_connections sid with
          | none => rw [hc] at hmem3; exact absurd hmem3 (by simp)
          | some cs =>
              rw [hc] at hmem3
              obtain ⟨meta2, hm2, hsid2⟩ := hinv2 sid cs hc ws2 (by simpa using hmem3)
              have hwne : ws ≠ ws2 := by
                intro he
                rw [← he, hfresh] at hm2
                exact absurd hm2 (by simp)
              refine ⟨meta2, ?_, by rw [hsid2, hs]⟩
              rw [dictGet?_dictSet_ne _ _ _ _ hwne]
              exact hm2
      · rw [dictGet?_dictSet_ne _ _ _ _ hs] at h2
        obtain ⟨meta2, hm2, hsid2⟩ := hinv2 sid2 conns2 h2 ws2 hmem2
        have hwne : ws ≠ ws2 := by
          intro he
          rw [← he, hfresh] at hm2
          exact absurd hm2 (by simp)
        refine ⟨meta2, ?_, hsid2⟩
        rw [dictGet?_dictSet_ne _ _ _ _ hwne]
        exact hm2
    · intro sid2 conns2 h2
      by_cases hs : sid = sid2
      · rw [← hs, dictGet?_dictSet_self] at h2
        have hceq : conns2 = ws :: (dictGet? st.active_connections sid).getD [] := by
          simpa using h2.symm
        rw [hceq]
        simp
      · rw [dictGet?_dictSet_ne _ _ _ _ hs] at h2
        exact hne _ _ h2
  exact hubWF_send beh _ ws _ hWF1

/-- One operation on the hub, as driven by the endpoint / HTTP layer. -/
inductive HubOp
  | connectOp (ws : WS) (session_id : String) (user_id : Option String) (now : Nat)
  | disconnectOp (ws : WS)
  | broadcastOp (session_id : String) (msg : Event)

/-- State after one hub operation. -/
def hubStep (beh : WS → WsBehavior) (st : HubState) : HubOp → HubState
  | .connectOp ws sid uid now => (connect beh st ws sid uid now).1
  | .disconnectOp ws => disconnect st ws
  | .broadcastOp sid msg => (broadcast_to_session beh st sid msg).1

/-- State after a sequence of hub operations. -/
def hubRun (beh : WS → WsBehavior) (st : HubState) : List HubOp → HubState
  | [] => st
  | op :: rest => hubRun beh (hubStep beh st op) rest

/-- The claim's precondition: no websocket is connected a second time without
an intervening disconnect. -/
def hubRunOk (beh : WS → WsBehavior) (st : HubState) : List HubOp → Bool
  | [] => true
  | .connectOp ws sid uid now :: rest =>
      (dictGet? st.connection_metadata ws).isNone
        && hubRunOk beh (hubStep beh st (.connectOp ws sid uid now)) rest
  | .disconnectOp ws :: rest => hubRunOk beh (hubStep beh st (.disconnectOp ws)) rest
  | .broadcastOp sid msg :: rest => hubRunOk beh (hubStep beh st (.broadcastOp sid msg)) rest

theorem hubWF_run (beh : WS → WsBehavior) (st : HubState) (ops : List HubOp)
    (hWF : hubWF st) (hok : hubRunOk beh st ops = true) : hubWF (hubRun beh st ops) := by
  induction ops generalizing st with
  | nil => simpa [hubRun] using hWF
  | cons op rest ih =>
      simp only [hubRun]
      cases op with
      | connectOp ws sid uid now =>
          simp only [hubRunOk, Bool.and_eq_true, Option.isNone_iff_eq_none] at hok
          exact ih _ (hubWF_connect beh st ws sid uid now hWF hok.1) hok.2
      | disconnectOp ws =>
          simp only [hubRunOk] at hok
          exact ih _ (hubWF_disconnect st ws hWF) hok
      | broadcastOp sid msg =>
          simp only [hubRunOk] at hok
          exact ih _ (hubWF_broadcast beh st sid msg hWF) hok

theorem hubRunOk_take (beh : WS → WsBehavior) (st : HubState) (ops : List HubOp) (k : Nat)
    (hok : hubRunOk beh st ops = true) : hubRunOk beh st (ops.take k) = true := by
  induction ops generalizing st k with
  | nil => simp [hubRunOk]
  | cons op rest ih =>
      cases k with
      | zero => simp [hubRunOk]
      | succ k2 =>
          cases op with
          | connectOp ws sid uid now =>
              simp only [List.take, hubRunOk, Bool.and_eq_true] at hok ⊢
              exact ⟨hok.1, ih _ _ hok.2⟩
          | disconnectOp ws =>
              simp only [List.take, hubRunOk] at hok ⊢
              exact ih _ _ hok
          | broadcastOp sid msg =>
              simp only [List.take, hubRunOk] at hok ⊢
              exact ih _ _ hok

/-- C9: for every sequence of connect, disconnect and broadcast operations
(the latter covering send-failure removals, under an arbitrary per-socket
behaviour) in which no socket is connected twice without an intervening
disconnect, after every prefix the hub's two maps are consistent: a socket has
a metadata entry for session `s` iff it is in the observer set stored under
`s`, and no stored observer set is empty. -/
theorem hub_maps_consistent (beh : WS → WsBehavior) (ops : List HubOp) (k : Nat)
    (hok : hubRunOk beh initHubState ops = true) :
    hubInv (hubRun beh initHubState (ops.take k)) :=
  (hubWF_run beh initHubState (ops.take k) hubWF_init
    (hubRunOk_take beh initHubState ops k hok)).2.2.2

theorem hub_maps_consistent_witness :
    hubRunOk (fun _ => WsBehavior.ok) initHubState
      [.connectOp 0 "s1" none 0, .connectOp 1 "s1" none 1, .disconnectOp 0] = true ∧
    hubInv (hubRun (fun _ => WsBehavior.ok) initHubState
      ([.connectOp 0 "s1" none 0, .connectOp 1 "s1" none 1, .disconnectOp 0].take 3)) :=
  ⟨by decide, hub_maps_consistent (fun _ => WsBehavior.ok)
    [.connectOp 0 "s1" none 0, .connectOp 1 "s1" none 1, .disconnectOp 0] 3 (by decide)⟩

theorem sendToAll_out (beh : WS → WsBehavior) (st : HubState) (conns : List WS)
    (msg : Event) :
    (sendToAll beh st conns msg).2
      = (conns.filter (fun w => beh w == WsBehavior.ok)).map (fun w => (w, msg)) := by
  induction conns generalizing st with
  | nil => simp [sendToAll]
  | cons w rest ih =>
      cases hb : beh w with
      | ok => simp [sendToAll, send_to_websocket, hb, List.filter_cons, ih]
      | alreadyDisconnected => simp [sendToAll, send_to_websocket, hb, List.filter_cons, ih]
      | sendFails => simp [sendToAll, send_to_websocket, hb, List.filter_cons, ih]

theorem sendToAll_state_allok (beh : WS → WsBehavior) (st : HubState) (conns : List WS)
    (msg : Event) (h : ∀ w ∈ conns, beh w = .ok) : (sendToAll beh st conns msg).1 = st := by
  induction conns generalizing st with
  | nil => rfl
  | cons w rest ih =>
      have hbw : beh w = .ok := h w (List.mem_cons_self _ _)
      have h1 : (send_to_websocket beh st w msg).1 = st := by
        simp [send_to_websocket, hbw]
      show (sendToAll beh (send_to_websocket beh st w msg).1 rest msg).1 = st
      rw [h1]
      exact ih st (fun x hx => h x (List.mem_cons_of_mem _ hx))

theorem sendToAll_state_onefail (beh : WS → WsBehavior) (st : HubState) (conns : List WS)
    (msg : Event) (wsf : WS) (hnd : conns.Nodup) (hmem : wsf ∈ conns)
    (hfail : beh wsf = .sendFails) (hok : ∀ w ∈ conns, w ≠ wsf → beh w = .ok) :
    (sendToAll beh st conns msg).1 = disconnect st wsf := by
  induction conns generalizing st with
  | nil => cases hmem
  | cons w rest ih =>
      obtain ⟨hwnr, hndr⟩ := List.nodup_cons.mp hnd
      by_cases hw : w = wsf
      · subst hw
        have h1 : (send_to_websocket beh st w msg).1 = disconnect st w := by
          simp [send_to_websocket, hfail]
        have hrest : ∀ x ∈ rest, beh x = .ok := fun x hx =>
          hok x (List.mem_cons_of_mem _ hx) (fun he => hwnr (he ▸ hx))
        show (sendToAll beh (send_to_websocket beh st w msg).1 rest msg).1 = disconnect st w
        rw [h1]
        exact sendToAll_state_allok beh _ rest msg hrest
      · have hbw : beh w = .ok := hok w (List.mem_cons_self _ _) hw
        have h1 : (send_to_websocket beh st w msg).1 = st := by
          simp [send_to_websocket, hbw]
        have hmem2 : wsf ∈ rest := by
          rcases List.mem_cons.mp hmem with he | h2
          · exact absurd he.symm hw
          · exact h2
        show (sendToAll beh (send_to_websocket beh st w msg).1 rest msg).1 = disconnect st wsf
        rw [h1]
        exact ih st hndr hmem2 (fun x hx hne => hok x (List.mem_cons_of_mem _ hx) hne)

/-- C3: broadcasting to a session whose observer set contains `wsf`, when the
send to `wsf` alone fails, still delivers the event to every other observer,
removes `wsf` from the session's observer set and from the metadata map, and —
`broadcast_to_session` being a total function whose failure handling is
internal — returns to its caller without raising. -/
theorem broadcast_one_failure (beh : WS → WsBehavior) (st : HubState) (sid : String)
    (conns : List WS) (wsf : WS) (metaf : ConnMeta) (msg : Event)
    (hconns : dictGet? st.active_connections sid = some conns)
    (hnd : conns.Nodup)
    (hacnd : (st.active_connections.map Prod.fst).Nodup)
    (hcmnd : (st.connection_metadata.map Prod.fst).Nodup)
    (hmetaf : dictGet? st.connection_metadata wsf = some metaf)
    (hmsid : metaf.session_id = sid)
    (hwsf : wsf ∈ conns)
    (hfail : beh wsf = .sendFails)
    (hok : ∀ w ∈ conns, w ≠ wsf → beh w = .ok) :
    (∀ w ∈ conns, w ≠ wsf → (w, msg) ∈ (broadcast_to_session beh st sid msg).2) ∧
    (∀ e, (wsf, e) ∉ (broadcast_to_session beh st sid msg).2) ∧
    (∀ conns2, dictGet? (broadcast_to_session beh st sid msg).1.active_connections sid
        = some conns2 → wsf ∉ conns2) ∧
    dictGet? (broadcast_to_session beh st sid msg).1.connection_metadata wsf = none := by
  have hbe : broadcast_to_session beh st sid msg = sendToAll beh st conns msg := by
    simp [broadcast_to_session, hconns]
  rw [hbe]
  have hout := sendToAll_out beh st conns msg
  have hstate := sendToAll_state_onefail beh st conns msg wsf hnd hwsf hfail hok
  refine ⟨?_, ?_, ?_, ?_⟩
  · intro w hw hne
    rw [hout]
    exact List.mem_map.mpr ⟨w, List.mem_filter.mpr ⟨hw, by simp [hok w hw hne]⟩, rfl⟩
  · intro e hmem
    rw [hout] at hmem
    obtain ⟨w, hwfil, heq⟩ := List.mem_map.mp hmem
    obtain ⟨hwc, hbw⟩ := List.mem_filter.mp hwfil
    have hw : w = wsf := congrArg Prod.fst heq
    rw [hw, hfail] at hbw
    exact absurd hbw (by decide)
  · intro conns2 h2
    rw [hstate] at h2
    by_cases herase : conns.erase wsf = []
    · have hd : (disconnect st wsf).active_connections
          = dictErase st.active_connections sid := by
        simp [disconnect, hmetaf, hmsid, hconns, herase]
      rw [hd, dictGet?_dictErase_self _ _ hacnd] at h2
      exact absurd h2 (by simp)
    · have hd : (disconnect st wsf).active_connections
          = dictSet st.active_connections sid (conns.erase wsf) := by
        simp [disconnect, hmetaf, hmsid, hconns, herase]
      rw [hd, dictGet?_dictSet_self] at h2
      have hceq : conns2 = conns.erase wsf := by simpa using h2.symm
      rw [hceq]
      exact fun hm => ((hnd.mem_erase_iff).mp hm).1 rfl
  · rw [hstate]
    have hd : (disconnect st wsf).connection_metadata
        = dictErase st.connection_metadata wsf := by
      simp [disconnect, hmetaf]
    rw [hd]
    exact dictGet?_dictErase_self _ _ hcmnd

theorem broadcast_one_failure_witness :
    (dictGet? (⟨[("s1", [0, 1, 2])],
        [(0, ⟨"s1", none, 0⟩), (1, ⟨"s1", none, 0⟩), (2, ⟨"s1", none, 0⟩)]⟩ :
          HubState).active_connections "s1" = some [0, 1, 2]) ∧
    ((∀ w ∈ [0, 1, 2], w ≠ 1 →
        (w, Event.pong 7) ∈ (broadcast_to_session
          (fun w => if w = 1 then WsBehavior.sendFails else WsBehavior.ok)
          ⟨[("s1", [0, 1, 2])],
            [(0, ⟨"s1", none, 0⟩), (1, ⟨"s1", none, 0⟩), (2, ⟨"s1", none, 0⟩)]⟩
          "s1" (Event.pong 7)).2) ∧
     (∀ e, (1, e) ∉ (broadcast_to_session
          (fun w => if w = 1 then WsBehavior.sendFails else WsBehavior.ok)
          ⟨[("s1", [0, 1, 2])],
            [(0, ⟨"s1", none, 0⟩), (1, ⟨"s1", none, 0⟩), (2, ⟨"s1", none, 0⟩)]⟩
          "s1" (Event.pong 7)).2) ∧
     (∀ conns2, dictGet? (broadcast_to_session
          (fun w => if w = 1 then WsBehavior.sendFails else WsBehavior.ok)
          ⟨[("s1", [0, 1, 2])],
            [(0, ⟨"s1", none, 0⟩), (1, ⟨"s1", none, 0⟩), (2, ⟨"s1", none, 0⟩)]⟩
          "s1" (Event.pong 7)).1.active_connections "s1" = some conns2 → 1 ∉ conns2) ∧
     dictGet? (broadcast_to_session
          (fun w => if w = 1 then WsBehavior.sendFails else WsBehavior.ok)
          ⟨[("s1", [0, 1, 2])],
            [(0, ⟨"s1", none, 0⟩), (1, ⟨"s1", none, 0⟩), (2, ⟨"s1", none, 0⟩)]⟩
          "s1" (Event.pong 7)).1.connection_metadata 1 = none) :=
  ⟨by decide,
    broadcast_one_failure
      (fun w => if w = 1 then WsBehavior.sendFails else WsBehavior.ok)
      ⟨[("s1", [0, 1, 2])],
        [(0, ⟨"s1", none, 0⟩), (1, ⟨"s1", none, 0⟩), (2, ⟨"s1", none, 0⟩)]⟩
      "s1" [0, 1, 2] 1 ⟨"s1", none, 0⟩ (Event.pong 7)
      (by decide) (by decide) (by decide) (by decide) (by decide) (by decide)
      (by decide) (by decide) (by decide)⟩

/-- C5, counterexample: with two observers of `s1` and the persistence write
failing, the code broadcasts the `error` event to the whole session — here it
reaches observer `1` although the inbound message came from observer `0`, so
the error is not sent to the originating connection only. -/
theorem persistence_error_counterexample :
    (1, Event.errorEvt "Error processing message: persistence failure" 5) ∈
      (handle_payload (fun _ => WsBehavior.ok) false
        ⟨[("s1", [0, 1])], [(0, ⟨"s1", none, 0⟩), (1, ⟨"s1", none, 0⟩)]⟩
        ⟨["s1"], 0, []⟩ 0 "s1" (.message "hi") 5).2.2 := by decide

/-- C5 (amended): when the persistence write fails while an inbound user
message is processed, the `error` event is broadcast to the whole session —
delivered to every observer whose send succeeds, not only the originating
connection — while no `user_message` event for the message is emitted and the
database is left unchanged. -/
theorem persistence_failure_broadcasts_error (beh : WS → WsBehavior) (st : HubState)
    (db : Db) (sid content : String) (now : Nat) (conns : List WS)
    (hsess : sid ∈ db.sessions)
    (hconns : dictGet? st.active_connections sid = some conns) :
    (∀ w ∈ conns, beh w = .ok →
       (w, Event.errorEvt "Error processing message: persistence failure" now)
         ∈ (handle_user_message beh false st db sid content now).2.2) ∧
    (∀ w c t mid, (w, Event.user_message c t mid)
         ∉ (handle_user_message beh false st db sid content now).2.2) ∧
    (handle_user_message beh false st db sid content now).2.1 = db := by
  have hout : (handle_user_message beh false st db sid content now).2.2
      = (conns.filter (fun w => beh w == WsBehavior.ok)).map
          (fun w => (w, Event.errorEvt "Error processing message: persistence failure" now)) := by
    have h1 : (handle_user_message beh false st db sid content now).2.2
        = (broadcast_to_session beh st sid
            (.errorEvt "Error processing message: persistence failure" now)).2 := by
      simp [handle_user_message, hsess]
    rw [h1]
    have h2 : broadcast_to_session beh st sid
        (.errorEvt "Error processing message: persistence failure" now)
        = sendToAll beh st conns
            (.errorEvt "Error processing message: persistence failure" now) := by
      simp [broadcast_to_session, hconns]
    rw [h2, sendToAll_out]
  refine ⟨?_, ?_, ?_⟩
  · intro w hw hbw
    rw [hout]
    exact List.mem_map.mpr ⟨w, List.mem_filter.mpr ⟨hw, by simp [hbw]⟩, rfl⟩
  · intro w c t mid hmem
    rw [hout] at hmem
    obtain ⟨w2, _, heq⟩ := List.mem_map.mp hmem
    exact absurd (congrArg Prod.snd heq) (by simp)
  · simp [handle_user_message, hsess]

theorem persistence_failure_broadcasts_error_witness :
    (("s1" : String) ∈ (["s1"] : List String)) ∧
    (dictGet? (⟨[("s1", [0, 1])],
        [(0, ⟨"s1", none, 0⟩), (1, ⟨"s1", none, 0⟩)]⟩ :
          HubState).active_connections "s1" = some [0, 1]) ∧
    ((∀ w ∈ [0, 1], (fun _ => WsBehavior.ok) w = WsBehavior.ok →
        (w, Event.errorEvt "Error processing message: persistence failure" 5)
          ∈ (handle_user_message (fun _ => WsBehavior.ok) false
              ⟨[("s1", [0, 1])], [(0, ⟨"s1", none, 0⟩), (1, ⟨"s1", none, 0⟩)]⟩
              ⟨["s1"], 0, []⟩ "s1" "hi" 5).2.2) ∧
     (∀ w c t mid, (w, Event.user_message c t mid)
          ∉ (handle_user_message (fun _ => WsBehavior.ok) false
              ⟨[("s1", [0, 1])], [(0, ⟨"s1", none, 0⟩), (1, ⟨"s1", none, 0⟩)]⟩
              ⟨["s1"], 0, []⟩ "s1" "hi" 5).2.2) ∧
     (handle_user_message (fun _ => WsBehavior.ok) false
        ⟨[("s1", [0, 1])], [(0, ⟨"s1", none, 0⟩), (1, ⟨"s1", none, 0⟩)]⟩
        ⟨["s1"], 0, []⟩ "s1" "hi" 5).2.1 = ⟨["s1"], 0, []⟩) :=
  ⟨by decide, by decide,
    persistence_failure_broadcasts_error (fun _ => WsBehavior.ok)
      ⟨[("s1", [0, 1])], [(0, ⟨"s1", none, 0⟩), (1, ⟨"s1", none, 0⟩)]⟩
      ⟨["s1"], 0, []⟩ "s1" "hi" 5 [0, 1] (by decide) (by decide)⟩

/-- C7: an inbound `ping` payload from one observer yields exactly one `pong`
event, carrying the current timestamp, sent to the originating connection
only; no event is emitted toward any other observer, and neither the hub state
nor the database changes. -/
theorem ping_pong_direct (beh : WS → WsBehavior) (persistOk : Bool) (st : HubState)
    (db : Db) (ws : WS) (sid : String) (now : Nat) (hok : beh ws = .ok) :
    handle_payload beh persistOk st db ws sid .ping now
        = (st, db, [(ws, Event.pong now)]) ∧
    (∀ w e, (w, e) ∈ (handle_payload beh persistOk st db ws sid .ping now).2.2 →
       w = ws ∧ e = Event.pong now) := by
  have he : handle_payload beh persistOk st db ws sid .ping now
      = (st, db, [(ws, Event.pong now)]) := by
    simp [handle_payload, send_to_websocket, hok]
  refine ⟨he, ?_⟩
  intro w e hmem
  rw [he] at hmem
  have heq : (w, e) = (ws, Event.pong now) := by simpa using hmem
  exact ⟨congrArg Prod.fst heq, congrArg Prod.snd heq⟩

theorem ping_pong_direct_witness :
    ((fun _ => WsBehavior.ok) 0 = WsBehavior.ok) ∧
    (handle_payload (fun _ => WsBehavior.ok) true
        ⟨[("s1", [0, 1])], [(0, ⟨"s1", none, 0⟩), (1, ⟨"s1", none, 0⟩)]⟩
        ⟨["s1"], 0, []⟩ 0 "s1" .ping 9
        = (⟨[("s1", [0, 1])], [(0, ⟨"s1", none, 0⟩), (1, ⟨"s1", none, 0⟩)]⟩,
           ⟨["s1"], 0, []⟩, [(0, Event.pong 9)]) ∧
     (∀ w e, (w, e) ∈ (handle_payload (fun _ => WsBehavior.ok) true
        ⟨[("s1", [0, 1])], [(0, ⟨"s1", none, 0⟩), (1, ⟨"s1", none, 0⟩)]⟩
        ⟨["s1"], 0, []⟩ 0 "s1" .ping 9).2.2 → w = 0 ∧ e = Event.pong 9)) :=
  ⟨by decide,
    ping_pong_direct (fun _ => WsBehavior.ok) true
      ⟨[("s1", [0, 1])], [(0, ⟨"s1", none, 0⟩), (1, ⟨"s1", none, 0⟩)]⟩
      ⟨["s1"], 0, []⟩ 0 "s1" 9 (by decide)⟩

theorem toDigitsCore_ne_nil (b fuel n : Nat) (ds : List Char) (h : ds ≠ []) :
    Nat.toDigitsCore b fuel n ds ≠ [] := by
  induction fuel generalizing n ds with
  | zero => simpa [Nat.toDigitsCore] using h
  | succ f ih =>
      simp only [Nat.toDigitsCore]
      by_cases hd : n / b = 0
      · simp [hd]
      · simpa [hd] using ih (n / b) (Nat.digitChar (n % b) :: ds) (List.cons_ne_nil _ _)

theorem toDigits_ne_nil (b n : Nat) : Nat.toDigits b n ≠ [] := by
  show Nat.toDigitsCore b (n + 1) n [] ≠ []
  simp only [Nat.toDigitsCore]
  by_cases hd : n / b = 0
  · simp [hd]
  · simpa [hd] using toDigitsCore_ne_nil b n (n / b) [Nat.digitChar (n % b)]
      (List.cons_ne_nil _ _)

/-- The durable message id `str(chat_message.id)` is never the empty string. -/
theorem toString_nat_ne_empty (n : Nat) : toString n ≠ "" := by
  intro h
  have h2 := congrArg String.data h
  have h3 : Nat.toDigits 10 n = [] := by
    simpa [toString, Nat.repr, List.asString] using h2
  exact toDigits_ne_nil 10 n h3

theorem handle_user_message_ok_out (beh : WS → WsBehavior) (st : HubState) (db : Db)
    (sid content : String) (now : Nat) (hsess : sid ∈ db.sessions) :
    (handle_user_message beh true st db sid content now).2.2
      = (broadcast_to_session beh st sid
          (.user_message content now (toString db.next_id))).2
        ++ (simulate_agent_response beh
              (broadcast_to_session beh st sid
                (.user_message content now (toString db.next_id))).1
              { db with
                next_id := db.next_id + 1
                history := db.history ++ [(db.next_id, sid, "user", content)] }
              sid content now).2.2 := by
  simp [handle_user_message, hsess]

/-- C8: with observers `c1` and `c2` of session `s1`, both deliverable, and a
successful persistence write, an inbound `{"type":"message","content":"hi"}`
payload from `c1` results in both `c1` and `c2` receiving a `user_message`
event whose content is `"hi"` and whose message id is non-empty. -/
theorem message_broadcast_to_both (beh : WS → WsBehavior) (st : HubState) (db : Db)
    (c1 c2 : WS) (s1 : String) (now : Nat)
    (hconns : dictGet? st.active_connections s1 = some [c1, c2])
    (hok1 : beh c1 = .ok) (hok2 : beh c2 = .ok)
    (hsess : s1 ∈ db.sessions) :
    ∃ mid : String, mid ≠ "" ∧
      (c1, Event.user_message "hi" now mid)
        ∈ (handle_payload beh true st db c1 s1 (.message "hi") now).2.2 ∧
      (c2, Event.user_message "hi" now mid)
        ∈ (handle_payload beh true st db c1 s1 (.message "hi") now).2.2 := by
  have ho := handle_user_message_ok_out beh st db s1 "hi" now hsess
  have hb : (broadcast_to_session beh st s1
      (.user_message "hi" now (toString db.next_id))).2
      = [(c1, Event.user_message "hi" now (toString db.next_id)),
         (c2, Event.user_message "hi" now (toString db.next_id))] := by
    have h2 : broadcast_to_session beh st s1
        (.user_message "hi" now (toString db.next_id))
        = sendToAll beh st [c1, c2] (.user_message "hi" now (toString db.next_id)) := by
      simp [broadcast_to_session, hconns]
    rw [h2, sendToAll_out]
    simp [List.filter_cons, hok1, hok2]
  refine ⟨toString db.next_id, toString_nat_ne_empty _, ?_, ?_⟩
  · show (c1, Event.user_message "hi" now (toString db.next_id))
        ∈ (handle_user_message beh true st db s1 "hi" now).2.2
    rw [ho]
    exact List.mem_append_left _ (by rw [hb]; exact List.mem_cons_self _ _)
  · show (c2, Event.user_message "hi" now (toString db.next_id))
        ∈ (handle_user_message beh true st db s1 "hi" now).2.2
    rw [ho]
    refine List.mem_append_left _ ?_
    rw [hb]
    exact List.mem_cons_of_mem _ (List.mem_cons_self _ _)

theorem message_broadcast_to_both_witness :
    (dictGet? (⟨[("s1", [0, 1])],
        [(0, ⟨"s1", none, 0⟩), (1, ⟨"s1", none, 0⟩)]⟩ :
          HubState).active_connections "s1" = some [0, 1]) ∧
    (("s1" : String) ∈ (["s1"] : List String)) ∧
    (∃ mid : String, mid ≠ "" ∧
      ((0 : WS), Event.user_message "hi" 4 mid)
        ∈ (handle_payload (fun _ => WsBehavior.ok) true
            ⟨[("s1", [0, 1])], [(0, ⟨"s1", none, 0⟩), (1, ⟨"s1", none, 0⟩)]⟩
            ⟨["s1"], 0, []⟩ 0 "s1" (.message "hi") 4).2.2 ∧
      ((1 : WS), Event.user_message "hi" 4 mid)
        ∈ (handle_payload (fun _ => WsBehavior.ok) true
            ⟨[("s1", [0, 1])], [(0, ⟨"s1", none, 0⟩), (1, ⟨"s1", none, 0⟩)]⟩
            ⟨["s1"], 0, []⟩ 0 "s1" (.message "hi") 4).2.2) :=
  ⟨by decide, by decide,
    message_broadcast_to_both (fun _ => WsBehavior.ok)
      ⟨[("s1", [0, 1])], [(0, ⟨"s1", none, 0⟩), (1, ⟨"s1", none, 0⟩)]⟩
      ⟨["s1"], 0, []⟩ 0 1 "s1" 4 (by decide) (by decide) (by decide) (by decide)⟩

theorem filterMap_length_countP {α β : Type} (f : α → Option β) (l : List α) :
    (l.filterMap f).length = l.countP (fun a => (f a).isSome) := by
  induction l with
  | nil => rfl
  | cons a tl ih =>
      cases hf : f a with
      | none => simp [List.filterMap_cons, hf, List.countP_cons, ih]
      | some b => simp [List.filterMap_cons, hf, List.countP_cons, ih]

/-- C10: `get_session_stats` returns `active_connections = 0` and no
per-connection list for a session with no registered observer connections; for
a session with observers it returns the size of the observer set together with
one (user id, connect time, duration) entry per observer that has metadata. -/
theorem get_session_stats_spec (st : HubState) (sid : String) (now : Nat) :
    (dictGet? st.active_connections sid = none →
       get_session_stats st sid now
         = { active_connections := 0, connections := none }) ∧
    (∀ conns, dictGet? st.active_connections sid = some conns →
       (get_session_stats st sid now).active_connections = conns.length ∧
       ∃ infos, (get_session_stats st sid now).connections = some infos ∧
         infos.length
           = conns.countP (fun ws => (dictGet? st.connection_metadata ws).isSome) ∧
         ∀ ws meta, ws ∈ conns → dictGet? st.connection_metadata ws = some meta →
           (⟨meta.user_id, meta.connected_at, now - meta.connected_at⟩ : ConnStat)
             ∈ infos) := by
  constructor
  · intro h
    simp [get_session_stats, h]
  · intro conns h
    refine ⟨by simp [get_session_stats, h], conns.filterMap (fun ws =>
        (dictGet? st.connection_metadata ws).map (fun m =>
          ⟨m.user_id, m.connected_at, now - m.connected_at⟩)), ?_, ?_, ?_⟩
    · simp [get_session_stats, h]
    · rw [filterMap_length_countP]
      congr 1
      funext ws
      cases dictGet? st.connection_metadata ws <;> rfl
    · intro ws meta hmem hlook
      exact List.mem_filterMap.mpr ⟨ws, hmem, by simp [hlook]⟩

theorem get_session_stats_spec_witness :
    (dictGet? (⟨[("s1", [0, 1])], [(0, ⟨"s1", some "u", 2⟩)]⟩ :
        HubState).active_connections "s2" = none) ∧
    (get_session_stats (⟨[("s1", [0, 1])], [(0, ⟨"s1", some "u", 2⟩)]⟩ : HubState)
        "s2" 10 = { active_connections := 0, connections := none }) ∧
    (dictGet? (⟨[("s1", [0, 1])], [(0, ⟨"s1", some "u", 2⟩)]⟩ :
        HubState).active_connections "s1" = some [0, 1]) ∧
    ((get_session_stats (⟨[("s1", [0, 1])], [(0, ⟨"s1", some "u", 2⟩)]⟩ : HubState)
        "s1" 10).active_connections = ([0, 1] : List WS).length ∧
     ∃ infos,
       (get_session_stats (⟨[("s1", [0, 1])], [(0, ⟨"s1", some "u", 2⟩)]⟩ : HubState)
          "s1" 10).connections = some infos ∧
       infos.length = ([0, 1] : List WS).countP (fun ws =>
         (dictGet? (⟨[("s1", [0, 1])], [(0, ⟨"s1", some "u", 2⟩)]⟩ :
            HubState).connection_metadata ws).isSome) ∧
       ∀ ws meta, ws ∈ ([0, 1] : List WS) →
         dictGet? (⟨[("s1", [0, 1])], [(0, ⟨"s1", some "u", 2⟩)]⟩ :
            HubState).connection_metadata ws = some meta →
         (⟨meta.user_id, meta.connected_at, 10 - meta.connected_at⟩ : ConnStat)
           ∈ infos) :=
  ⟨by decide,
    (get_session_stats_spec (⟨[("s1", [0, 1])], [(0, ⟨"s1", some "u", 2⟩)]⟩ : HubState)
      "s2" 10).1 (by decide),
    by decide,
    (get_session_stats_spec (⟨[("s1", [0, 1])], [(0, ⟨"s1", some "u", 2⟩)]⟩ : HubState)
      "s1" 10).2 [0, 1] (by decide)⟩

end Challenges
